import Mathlib

/-!
Verification development for the stripe-reporter pipeline
(`src/stripe-reporter.py`).

The Python program is embedded shallowly:

* Stripe API response objects become Lean structures.  Optional attributes
  (an attribute that may be absent on the dynamic object, probed with
  `hasattr` in the source) are modelled as `Option` fields; reading such an
  attribute when it is absent is an `AttributeError`, so functions that
  perform an unguarded read return `Except PyErr`.
* The remote queries (`stripe.checkout.Session.list`, the balance-transaction
  pagination iterator) are parameters: a function from the query argument to
  the list of records the provider would return.
* Python `dict`s keyed by strings (or by `None`/strings) become insertion
  ordered association lists, matching CPython dict semantics: membership and
  lookup find the unique entry with that key, a fresh key is appended at the
  end, updating keeps the position of the first insertion.
* Exceptions (`ValueError`, `AttributeError`, `IndexError`) become
  `Except PyErr`; a loop that can raise is a fold in the `Except` monad, so
  an exception anywhere discards the whole result, exactly as an uncaught
  Python exception unwinds the call.
* The concurrent resolver (`ThreadPoolExecutor` + `as_completed`) is modelled
  sequentially over the submission order: every future is produced by a pure
  lookup, `future.result()` re-raises the worker's exception in the
  collecting loop, and the collected dict is returned only after all futures
  were consumed, so "some lookup raised" iff "the stage raises" holds under
  every completion order, which is the only fact the claims use.
-/

namespace StripeReporter

/-- The Python exceptions the embedded fragment can raise. -/
inductive PyErr where
  | valueError (msg : String)
  | attributeError (msg : String)
  | indexError (msg : String)
  deriving DecidableEq, Repr

/-- `customer_details` of a checkout session: both fields are nullable. -/
structure CustomerDetails where
  name : Option String
  email : Option String
  deriving DecidableEq, Repr

/-- One line item of a checkout session (`line_items.data[i]`). -/
structure LineItem where
  description : String
  deriving DecidableEq, Repr

/-- A checkout session as used by `get_intent_data`: its expanded
`line_items.data` list and its `customer_details` record. -/
structure Session where
  line_items : List LineItem
  customer_details : CustomerDetails
  deriving DecidableEq, Repr

/-- The value stored per intent id by the resolver: the dict with keys
`product` and `customer` (the latter with keys `name` and `email`).
`product` is `none` only in the unmatched default used by
`simplify_report_data`. -/
structure IntentData where
  product : Option String
  customer : CustomerDetails
  deriving DecidableEq, Repr

/-- An expanded `payment_intent` object attached to a transaction source. -/
structure PaymentIntentRef where
  id : String
  deriving DecidableEq, Repr

/-- The `source` object of a balance transaction.  `payment_intent = none`
models a source object on which `hasattr(source, 'payment_intent')` is
false; an unguarded read of the attribute is then an `AttributeError`. -/
structure TxSource where
  payment_intent : Option PaymentIntentRef
  deriving DecidableEq, Repr

/-- A balance transaction as returned by the provider's payout listing. -/
structure BalanceTx where
  id : String
  type : String
  created : Int
  amount : Int
  currency : String
  fee : Int
  net : Int
  source : TxSource
  deriving DecidableEq, Repr

/-- A simplified (enriched) transaction: the flat dict built by
`simplify_report_data`. -/
structure STx where
  id : String
  created : Int
  amount : Int
  currency : String
  fee : Int
  net : Int
  product : Option String
  name : Option String
  email : Option String
  deriving DecidableEq, Repr

/-- One aggregation bucket: the per-product dict built by
`aggregate_report_transactions`. -/
structure Bucket where
  amount : Int
  fee : Int
  net : Int
  product : Option String
  deriving DecidableEq, Repr

/-- `DIRECT_CHARGE`: product label used when an intent has no checkout
session. -/
def DIRECT_CHARGE : String := "SudoSOS Topup"

/-- `get_payout_transactions`: the provider's paginated listing (already
materialised as `provider_txs`) filtered to drop entries of type
`"payout"` (the payout-to-bank settlement itself). -/
def get_payout_transactions (provider_txs : List BalanceTx) : List BalanceTx :=
  provider_txs.filter (fun transaction => transaction.type ≠ "payout")

/-- `get_payment_intents_ids`: the intent ids of all transactions whose
source has a `payment_intent` attribute (the source's `hasattr` guard). -/
def get_payment_intents_ids (transactions_data : List BalanceTx) : List String :=
  transactions_data.filterMap (fun transaction =>
    transaction.source.payment_intent.map (fun pi => pi.id))

/-- `get_intent_data`: queries the checkout sessions of one intent.
More than one session raises `ValueError`; zero sessions yield the
`DIRECT_CHARGE` product with null customer fields; exactly one session
yields its first line item's description (`line_items.data[0]` raises
`IndexError` on an empty list) and its `customer_details`. -/
def get_intent_data (query : String → List Session) (intent_id : String) :
    Except PyErr (String × IntentData) :=
  let charges := query intent_id
  if charges.length > 1 then
    .error (.valueError "Intent has more than 1 session.")
  else
    match charges with
    | [] => .ok (intent_id,
        { product := some DIRECT_CHARGE, customer := { name := none, email := none } })
    | charge :: _ =>
      match charge.line_items with
      | [] => .error (.indexError "list index out of range")
      | item :: _ => .ok (intent_id,
          { product := some item.description, customer := charge.customer_details })

/-- `make_intent_charge_dict`: one `get_intent_data` lookup per intent id;
the worker pool's `as_completed` loop re-raises the first failure, so the
stage returns the full dict or raises, never a partial mapping. -/
def make_intent_charge_dict (query : String → List Session) :
    List String → Except PyErr (List (String × IntentData))
  | [] => .ok []
  | intent_id :: rest =>
    match get_intent_data query intent_id with
    | .error e => .error e
    | .ok (k, v) =>
      match make_intent_charge_dict query rest with
      | .error e => .error e
      | .ok d => .ok ((k, v) :: d)

/-- The unmatched default of `simplify_report_data`: product `None`,
customer name `None`, customer email `None`. -/
def defaultIntentData : IntentData :=
  { product := none, customer := { name := none, email := none } }

/-- First-match association-list lookup with a default: Python's
`dict.get(key, default)`. -/
def dictGetD (d : List (String × IntentData)) (k : String) (default : IntentData) :
    IntentData :=
  match d with
  | [] => default
  | (k', v) :: rest => if k' = k then v else dictGetD rest k default

/-- `simplify_report_data`: joins each transaction with the resolved intent
metadata.  The source reads `transaction.source.payment_intent.id` with no
guard, so a transaction whose source lacks the attribute raises
`AttributeError` and the whole loop unwinds. -/
def simplify_report_data (transactions_data : List BalanceTx)
    (intent_type_charge_dict : List (String × IntentData)) :
    Except PyErr (List STx) :=
  match transactions_data with
  | [] => .ok []
  | transaction :: rest =>
    match transaction.source.payment_intent with
    | none => .error (.attributeError "payment_intent")
    | some pi =>
      let intent_data := dictGetD intent_type_charge_dict pi.id defaultIntentData
      match simplify_report_data rest intent_type_charge_dict with
      | .error e => .error e
      | .ok tail => .ok (
          { id := transaction.id
            created := transaction.created
            amount := transaction.amount
            currency := transaction.currency
            fee := transaction.fee
            net := transaction.net
            product := intent_data.product
            name := intent_data.customer.name
            email := intent_data.customer.email } :: tail)

/-- The bucket created on the first transaction of a product. -/
def newBucket (t : STx) : Bucket :=
  { amount := t.amount, fee := t.fee, net := t.net, product := t.product }

/-- Adding one transaction's amount, fee and net to an existing bucket. -/
def addTx (b : Bucket) (t : STx) : Bucket :=
  { b with amount := b.amount + t.amount, fee := b.fee + t.fee, net := b.net + t.net }

/-- First-match lookup in the aggregation dict (keys may be `None`). -/
def aggLookup (d : List (Option String × Bucket)) (p : Option String) : Option Bucket :=
  match d with
  | [] => none
  | (k, b) :: rest => if k = p then some b else aggLookup rest p

/-- In-place update of the (unique) entry with key `p`: the `+=` branch of
the aggregation loop. -/
def updateBucket (d : List (Option String × Bucket)) (p : Option String) (t : STx) :
    List (Option String × Bucket) :=
  match d with
  | [] => []
  | (k, b) :: rest =>
    if k = p then (k, addTx b t) :: rest else (k, b) :: updateBucket rest p t

/-- One iteration of the aggregation loop: a first-seen product appends a
fresh bucket (dict insertion order), a seen product updates its bucket. -/
def aggStep (d : List (Option String × Bucket)) (t : STx) :
    List (Option String × Bucket) :=
  if (aggLookup d t.product).isSome then
    updateBucket d t.product t
  else
    d ++ [(t.product, newBucket t)]

/-- `aggregate_report_transactions`: left fold of the aggregation loop over
the simplified transactions, starting from the empty dict. -/
def aggregate_report_transactions (report_transactions : List STx) :
    List (Option String × Bucket) :=
  report_transactions.foldl aggStep []

/-- Sum of one monetary projection over all buckets of an aggregation
dict. -/
def bucketSums (d : List (Option String × Bucket)) (f : Bucket → Int) : Int :=
  (d.map (fun e => f e.2)).sum

/-- The transactions of a list whose product equals `p`. -/
def productFilter (l : List STx) (p : Option String) : List STx :=
  l.filter (fun t => t.product = p)

/-- Folding one product's transactions into an optional bucket: the first
transaction creates the bucket, later ones accumulate into it.  This is
the per-key trace of the aggregation loop. -/
def foldBucket (ob : Option Bucket) (l : List STx) : Option Bucket :=
  l.foldl (fun ob t =>
    match ob with
    | Option.none => some (newBucket t)
    | some b => some (addTx b t)) ob

/-- The report dict built by `get_report_data` (and reloaded by
`read_report_data_from_json`): payout id, ordered simplified transactions,
and the insertion-ordered aggregation dict. -/
structure Report where
  balance_payout_id : String
  transactions : List STx
  aggregation : List (Option String × Bucket)
  deriving DecidableEq, Repr

/-- A Python value sitting in one field of a report dict, before worksheet
formatting: an int, a string, or `None`. -/
inductive RawVal where
  | int (n : Int)
  | str (s : String)
  | null
  deriving DecidableEq, Repr

/-- A value written into a worksheet cell: a string, an unchanged int, the
result of the true division `data[key] / 100` (exact, so a rational), or an
empty cell (Python `None`). -/
inductive CellVal where
  | str (s : String)
  | int (n : Int)
  | rat (q : ℚ)
  | empty
  deriving DecidableEq, Repr

/-- An untransformed field lands in the cell as-is (`None` leaves the cell
empty). -/
def cellOfRaw : RawVal → CellVal
  | .int n => .int n
  | .str s => .str s
  | .null => .empty

/-- View of an optional string as a Python field value. -/
def optStr : Option String → RawVal
  | Option.none => .null
  | some s => .str s

/-- Field access `data[key]` on a simplified-transaction dict. -/
def txGet (t : STx) (key : String) : RawVal :=
  if key = "id" then .str t.id
  else if key = "created" then .int t.created
  else if key = "amount" then .int t.amount
  else if key = "currency" then .str t.currency
  else if key = "fee" then .int t.fee
  else if key = "net" then .int t.net
  else if key = "product" then optStr t.product
  else if key = "name" then optStr t.name
  else if key = "email" then optStr t.email
  else .null

/-- Field access `data[key]` on an aggregation-bucket dict. -/
def bucketGet (b : Bucket) (key : String) : RawVal :=
  if key = "product" then optStr b.product
  else if key = "amount" then .int b.amount
  else if key = "fee" then .int b.fee
  else if key = "net" then .int b.net
  else .null

/-- Two-digit zero padding, as produced by `strftime` for month, day, hour,
minute and second fields. -/
def pad2 (n : Int) : String :=
  if n < 10 then "0" ++ toString n else toString n

/-- Four-digit zero padding for the year field. -/
def pad4 (n : Int) : String :=
  if n < 10 then "000" ++ toString n
  else if n < 100 then "00" ++ toString n
  else if n < 1000 then "0" ++ toString n
  else toString n

/-- Proleptic-Gregorian date of a day count relative to 1970-01-01
(the civil-from-days conversion used by `datetime.utcfromtimestamp`):
returns (year, month, day). -/
def civilFromDays (z0 : Int) : Int × Int × Int :=
  let z := z0 + 719468
  let era := z.fdiv 146097
  let doe := z - era * 146097
  let yoe := (doe - doe / 1460 + doe / 36524 - doe / 146096) / 365
  let y := yoe + era * 400
  let doy := doe - (365 * yoe + yoe / 4 - yoe / 100)
  let mp := (5 * doy + 2) / 153
  let d := doy - (153 * mp + 2) / 5 + 1
  let m := mp + (if mp < 10 then 3 else -9)
  (y + (if m ≤ 2 then 1 else 0), m, d)

/-- The composition
`datetime.utcfromtimestamp(t).strftime(three date fields, a space, three
time fields)`: the epoch-second timestamp rendered as a UTC date-time
string of shape YYYY-MM-DD HH:MM:SS. -/
def formatUtcDateTime (t : Int) : String :=
  let days := t.fdiv 86400
  let sod := t.emod 86400
  let hh := sod / 3600
  let mm := (sod % 3600) / 60
  let ss := sod % 60
  let ymd := civilFromDays days
  pad4 ymd.1 ++ "-" ++ pad2 ymd.2.1 ++ "-" ++ pad2 ymd.2.2 ++ " " ++
    pad2 hh ++ ":" ++ pad2 mm ++ ":" ++ pad2 ss

/-- `format_for_worksheet`: monetary keys are divided by 100 (true
division), `created` is rendered through `utcfromtimestamp`/`strftime`,
everything else passes through unchanged.  The non-int fallbacks of the
first two branches are unreachable for the dicts this program builds. -/
def format_for_worksheet (data : String → RawVal) (key : String) : CellVal :=
  if key = "amount" ∨ key = "fee" ∨ key = "net" then
    match data key with
    | .int n => .rat ((n : ℚ) / 100)
    | v => cellOfRaw v
  else if key = "created" then
    match data key with
    | .int n => .str (formatUtcDateTime n)
    | v => cellOfRaw v
  else cellOfRaw (data key)

/-- The detail-table header list `headers` of `save_to_worksheet`. -/
def worksheetHeaders : List String :=
  ["id", "created", "amount", "currency", "fee", "net", "product", "name", "email"]

/-- The aggregation-table header list: `aggregation_headers` is the
`product` column followed by the `numeric` columns. -/
def aggregationHeaders : List String :=
  ["product", "amount", "fee", "net"]

/-- Element of a string list at an index, empty past the end (the loops
below only use in-range indices). -/
def headerAt (hs : List String) (i : Nat) : String :=
  match hs.get? i with
  | some h => h
  | Option.none => ""

/-- Placeholder bucket for out-of-range indexing; never selected by the
in-range loops of `save_to_worksheet`. -/
def dummyBucket : Bucket :=
  { amount := 0, fee := 0, net := 0, product := Option.none }

/-- Placeholder transaction for out-of-range indexing; never selected by
the in-range loops of `save_to_worksheet`. -/
def dummySTx : STx :=
  { id := "", created := 0, amount := 0, currency := "", fee := 0, net := 0,
    product := Option.none, name := Option.none, email := Option.none }

/-- One `worksheet.cell(row=..., column=..., value=...)` write. -/
structure CellWrite where
  row : Nat
  col : Nat
  val : CellVal
  deriving DecidableEq, Repr

/-- `save_to_worksheet`: the sequence of cell writes the function issues.
Row 1 is the aggregation header, rows 2 .. len+1 the aggregation buckets in
dict order, row `aggregation_len + 1` the detail header, and the detail
rows start at `aggregation_len + 2`, with `aggregation_len` defined in the
source as the bucket count plus 2. -/
def save_to_worksheet (report_data : Report) : List CellWrite :=
  let aggregation_len := report_data.aggregation.length + 2
  ((List.range aggregationHeaders.length).map fun idx =>
    { row := 1, col := idx + 1, val := .str (headerAt aggregationHeaders idx) })
  ++ ((List.range report_data.aggregation.length).flatMap fun row_idx =>
      (List.range aggregationHeaders.length).map fun col_idx =>
        { row := row_idx + 2, col := col_idx + 1,
          val := format_for_worksheet
            (bucketGet (report_data.aggregation.getD row_idx
              (Option.none, dummyBucket)).2)
            (headerAt aggregationHeaders col_idx) })
  ++ ((List.range worksheetHeaders.length).map fun idx =>
    { row := aggregation_len + 1, col := idx + 1,
      val := .str (headerAt worksheetHeaders idx) })
  ++ ((List.range report_data.transactions.length).flatMap fun row_idx =>
      (List.range worksheetHeaders.length).map fun col_idx =>
        { row := row_idx + 2 + aggregation_len, col := col_idx + 1,
          val := format_for_worksheet
            (txGet (report_data.transactions.getD row_idx dummySTx))
            (headerAt worksheetHeaders col_idx) })

/-- The JSON object key a Python aggregation-dict key serialises to:
`json.dumps` coerces a `None` key to the string "null"; a string key stays
itself. -/
def jsonKeyOfProduct : Option String → String
  | Option.none => "null"
  | some s => s

/-- CPython dict assignment `d[k] = v`: replace the value of an existing
key in place, otherwise append the new key at the end. -/
def dictSet (d : List (String × Bucket)) (k : String) (v : Bucket) :
    List (String × Bucket) :=
  match d with
  | [] => [(k, v)]
  | (k', v') :: rest =>
    if k' = k then (k', v) :: rest else (k', v') :: dictSet rest k v

/-- Rebuilding a dict from parsed key/value pairs (what `json.load` does
with an object): duplicate keys resolve last-value-wins at the position of
the first occurrence. -/
def pyDictOfPairs (pairs : List (String × Bucket)) : List (String × Bucket) :=
  pairs.foldl (fun d e => dictSet d e.1 e.2) []

/-- The round trip `json.load` after `json.dumps` at the Report shape
(`process_report_data` dumps, `read_report_data_from_json` loads): the
payout id and the transaction dicts round-trip verbatim (ints, strings and
nulls are preserved exactly), while the aggregation dict is rebuilt from
its serialised keys, so a `None` key comes back as the JSON string "null"
and every reloaded key is a string. -/
def json_round_trip (r : Report) : Report :=
  { balance_payout_id := r.balance_payout_id
    transactions := r.transactions
    aggregation :=
      (pyDictOfPairs (r.aggregation.map (fun e => (jsonKeyOfProduct e.1, e.2)))).map
        (fun e => (some e.1, e.2)) }

/-- Attribute lookup on a Python `str` object for zero-argument-pattern
prefix testing methods: only the real method name `startswith` exists;
any other name is an `AttributeError`. -/
def pyStrMethod (name : String) : Option (String → String → Bool) :=
  if name = "startswith" then
    some (fun self pre => pre.isPrefixOf self)
  else
    Option.none

/-- The credential validation at the top of `main`: the source calls
`stripe.api_key.startsWith` (capital W), a method that does not exist on
`str`, so the attribute lookup itself raises before the prefix is ever
tested. -/
def main_api_key_check (api_key : String) : Except PyErr Unit :=
  match pyStrMethod "startsWith" with
  | Option.none =>
    .error (.attributeError "str object has no attribute startsWith")
  | some checkMethod =>
    let pre := "rk_"
    if checkMethod api_key pre then .ok ()
    else .error (.valueError "STRIPE_API_KEY must be set to a restricted API key. Check if the environment variable has been set and whether the key is a restricted API key")

/-! Concrete records used to evaluate the definitions at specific inputs. -/

/-- A fee-type balance transaction whose source has no `payment_intent`
attribute (for example a Stripe fee entry). -/
def txWithoutIntent : BalanceTx :=
  { id := "txn_fee", type := "stripe_fee", created := 1700000000, amount := -25,
    currency := "eur", fee := 0, net := -25,
    source := { payment_intent := Option.none } }

/-- A charge transaction referencing intent `pi_1`. -/
def txIntent1 : BalanceTx :=
  { id := "txn_1", type := "charge", created := 1700000000, amount := 1000,
    currency := "eur", fee := 30, net := 970,
    source := { payment_intent := some { id := "pi_1" } } }

/-- The payout-to-bank settlement entry of a payout listing. -/
def txPayoutEntry : BalanceTx :=
  { id := "txn_po", type := "payout", created := 1700000100, amount := -970,
    currency := "eur", fee := 0, net := -970,
    source := { payment_intent := Option.none } }

/-- A session query that returns no checkout session. -/
def qZero : String → List Session := fun _ => []

/-- A checkout session with one line item and full customer details. -/
def sOne : Session :=
  { line_items := [{ description := "Coffee" }],
    customer_details := { name := some "A", email := some "a@x.com" } }

/-- A session query that returns exactly the session `sOne`. -/
def qOne : String → List Session := fun _ => [sOne]

/-- A checkout session with an empty line-item list. -/
def sEmptyItems : Session :=
  { line_items := [],
    customer_details := { name := some "B", email := some "b@x.com" } }

/-- A session query that returns exactly the session `sEmptyItems`. -/
def qEmptyItems : String → List Session := fun _ => [sEmptyItems]

/-- A session query that returns two sessions for every intent. -/
def qMulti : String → List Session := fun _ => [sOne, sEmptyItems]

/-- Simplified transaction: a matched Coffee purchase. -/
def stxCoffeeA : STx :=
  { id := "t1", created := 1700000000, amount := 1000, currency := "eur",
    fee := 30, net := 970, product := some "Coffee", name := some "A",
    email := some "a@x.com" }

/-- Simplified transaction: an unmatched entry with null metadata. -/
def stxUnmatched : STx :=
  { id := "t2", created := 1700000200, amount := 500, currency := "eur",
    fee := 15, net := 485, product := Option.none, name := Option.none,
    email := Option.none }

/-- Simplified transaction: a second Coffee purchase. -/
def stxCoffeeB : STx :=
  { id := "t3", created := 1700000300, amount := 7, currency := "eur",
    fee := 1, net := 6, product := some "Coffee", name := some "B",
    email := some "b@x.com" }

/-- An aggregation bucket for the Coffee product. -/
def bCoffee : Bucket :=
  { amount := 1000, fee := 30, net := 970, product := some "Coffee" }

/-- An aggregation bucket for the null product. -/
def bNull : Bucket :=
  { amount := 500, fee := 15, net := 485, product := Option.none }

/-- A report with one bucket and one detail transaction. -/
def repOneEach : Report :=
  { balance_payout_id := "po_1", transactions := [stxCoffeeA],
    aggregation := [(some "Coffee", bCoffee)] }

/-- A report whose aggregation contains the null-product group. -/
def repWithNullGroup : Report :=
  { balance_payout_id := "po_2", transactions := [stxCoffeeA, stxUnmatched],
    aggregation := [(some "Coffee", bCoffee), (Option.none, bNull)] }

end StripeReporter

namespace StripeReporter

/-! Claim theorems (with the supporting lemmas they need). -/

/-- Claim C1: the spec says a transaction that does not reference a
purchase-intent identifier passes through `simplify_report_data` with the
unmatched-default metadata instead of causing a failure.  The source reads
`transaction.source.payment_intent.id` unguarded, so such a transaction
raises `AttributeError` and the assembler fails: evaluating the embedded
code at a fee transaction without a `payment_intent` attribute yields the
error, not a default-enriched record. -/
theorem simplify_report_data_fails_on_missing_intent :
    simplify_report_data [txWithoutIntent] [] =
      .error (.attributeError "payment_intent") := rfl

/-- Claim C9: the spec says a restricted key (prefix `rk_`) passes the
credential validation and the run proceeds.  The source calls the
non-existent method `startsWith` on the key string, so the validation
raises `AttributeError` for every key, restricted ones included. -/
theorem main_api_key_check_fails_on_restricted_key :
    main_api_key_check "rk_test_key" =
      .error (.attributeError "str object has no attribute startsWith") := rfl

/-- Claim C10: when the checkout-session query returns exactly one session
whose line-item list is empty, `get_intent_data` raises an indexing error
(`line_items.data[0]` on an empty list) instead of returning metadata. -/
theorem get_intent_data_index_error_on_empty_line_items
    (query : String → List Session) (intent_id : String) (s : Session)
    (hq : query intent_id = [s]) (hli : s.line_items = []) :
    get_intent_data query intent_id =
      .error (.indexError "list index out of range") := by
  simp [get_intent_data, hq, hli]

/-- Witness for C10: a concrete single-session query with no line items. -/
theorem get_intent_data_index_error_on_empty_line_items_witness :
    get_intent_data qEmptyItems "pi_w" =
      .error (.indexError "list index out of range") :=
  get_intent_data_index_error_on_empty_line_items qEmptyItems "pi_w"
    sEmptyItems rfl rfl

/-- Claim C6: with zero sessions, `get_intent_data` returns the
`DIRECT_CHARGE` label and null customer fields; with exactly one session
(that has a first line item), it returns that line item's description and
the session's `customer_details`. -/
theorem get_intent_data_zero_and_one_session
    (query : String → List Session) (intent_id : String) :
    (query intent_id = [] →
      get_intent_data query intent_id =
        .ok (intent_id,
          { product := some DIRECT_CHARGE,
            customer := { name := Option.none, email := Option.none } })) ∧
    (∀ s item rest, query intent_id = [s] → s.line_items = item :: rest →
      get_intent_data query intent_id =
        .ok (intent_id,
          { product := some item.description,
            customer := s.customer_details })) := by
  constructor
  · intro h
    simp [get_intent_data, h]
  · intro s item rest hq hli
    simp [get_intent_data, hq, hli]

/-- Witness for C6: the zero-session and the one-session queries at
concrete intents. -/
theorem get_intent_data_zero_and_one_session_witness :
    get_intent_data qZero "pi_a" =
      .ok ("pi_a",
        { product := some DIRECT_CHARGE,
          customer := { name := Option.none, email := Option.none } }) ∧
    get_intent_data qOne "pi_b" =
      .ok ("pi_b",
        { product := some "Coffee",
          customer := { name := some "A", email := some "a@x.com" } }) :=
  ⟨(get_intent_data_zero_and_one_session qZero "pi_a").1 rfl,
   (get_intent_data_zero_and_one_session qOne "pi_b").2 sOne
     { description := "Coffee" } [] rfl rfl⟩

/-- Claim C5: `get_payout_transactions` removes every entry of type
`payout` and keeps all other entries in provider order (the output is a
sublist of the input containing every non-payout entry). -/
theorem get_payout_transactions_filter_property (provider_txs : List BalanceTx) :
    (∀ t ∈ get_payout_transactions provider_txs, t.type ≠ "payout") ∧
    (get_payout_transactions provider_txs).Sublist provider_txs ∧
    (∀ t ∈ provider_txs, t.type ≠ "payout" →
      t ∈ get_payout_transactions provider_txs) := by
  refine ⟨?_, List.filter_sublist _, ?_⟩
  · intro t ht
    have h := List.of_mem_filter ht
    simpa using h
  · intro t ht hty
    exact List.mem_filter.mpr ⟨ht, by simpa using hty⟩

/-- Witness for C5: on a listing with the settlement entry and a charge,
the charge is kept. -/
theorem get_payout_transactions_filter_property_witness :
    txIntent1 ∈ get_payout_transactions [txPayoutEntry, txIntent1] :=
  (get_payout_transactions_filter_property [txPayoutEntry, txIntent1]).2.2
    txIntent1 (by decide) (by decide)

/-- Claim C3: an intent whose query returns more than one session makes
`get_intent_data` raise `ValueError`, and the whole
`make_intent_charge_dict` stage then fails with an error instead of
returning any (partial) mapping. -/
theorem make_intent_charge_dict_fails_on_multi_session
    (query : String → List Session) (ids : List String) (intent_id : String)
    (hmem : intent_id ∈ ids) (hlen : 1 < (query intent_id).length) :
    get_intent_data query intent_id =
      .error (.valueError "Intent has more than 1 session.") ∧
    ∃ e, make_intent_charge_dict query ids = .error e := by
  have hone : get_intent_data query intent_id =
      .error (.valueError "Intent has more than 1 session.") := by
    simp [get_intent_data, hlen]
  refine ⟨hone, ?_⟩
  induction ids with
  | nil => cases hmem
  | cons a as ih =>
    rcases List.mem_cons.mp hmem with h | h
    · subst h
      exact ⟨.valueError "Intent has more than 1 session.",
        by simp [make_intent_charge_dict, hone]⟩
    · cases hga : get_intent_data query a with
      | error e' => exact ⟨e', by simp [make_intent_charge_dict, hga]⟩
      | ok v =>
        obtain ⟨e, he⟩ := ih h
        obtain ⟨k0, v0⟩ := v
        exact ⟨e, by simp [make_intent_charge_dict, hga, he]⟩

/-- Witness for C3: a query returning two sessions for the only queried
intent. -/
theorem make_intent_charge_dict_fails_on_multi_session_witness :
    get_intent_data qMulti "pi_m" =
      .error (.valueError "Intent has more than 1 session.") ∧
    ∃ e, make_intent_charge_dict qMulti ["pi_m"] = .error e :=
  make_intent_charge_dict_fails_on_multi_session qMulti ["pi_m"] "pi_m"
    (by decide) (by decide)

/-- Updating the bucket of a key that is present adds exactly that
transaction's contribution to the total over all buckets. -/
theorem bucketSums_updateBucket (f : Bucket → Int) (g : STx → Int)
    (hf : ∀ b t, f (addTx b t) = f b + g t) :
    ∀ (d : List (Option String × Bucket)) (p : Option String) (t : STx),
      (aggLookup d p).isSome →
      bucketSums (updateBucket d p t) f = bucketSums d f + g t := by
  intro d
  induction d with
  | nil => intro p t h; simp [aggLookup] at h
  | cons e rest ih =>
    intro p t h
    obtain ⟨k, b⟩ := e
    by_cases hk : k = p
    · simp [updateBucket, hk, bucketSums, hf]
      omega
    · have h' : (aggLookup rest p).isSome := by
        simpa [aggLookup, hk] using h
      have hrec := ih p t h'
      simp [updateBucket, hk, bucketSums] at hrec ⊢
      omega

/-- One aggregation step adds exactly one transaction's contribution to
the total over all buckets. -/
theorem bucketSums_aggStep (f : Bucket → Int) (g : STx → Int)
    (hf : ∀ b t, f (addTx b t) = f b + g t)
    (hg : ∀ t, f (newBucket t) = g t)
    (d : List (Option String × Bucket)) (t : STx) :
    bucketSums (aggStep d t) f = bucketSums d f + g t := by
  unfold aggStep
  by_cases h : (aggLookup d t.product).isSome
  · rw [if_pos h]
    exact bucketSums_updateBucket f g hf d t.product t h
  · rw [if_neg h]
    simp [bucketSums, hg]

/-- Folding the aggregation step over a transaction list adds the sum of
the projection over the list to the total over all buckets. -/
theorem bucketSums_foldl (f : Bucket → Int) (g : STx → Int)
    (hf : ∀ b t, f (addTx b t) = f b + g t)
    (hg : ∀ t, f (newBucket t) = g t) :
    ∀ (l : List STx) (d : List (Option String × Bucket)),
      bucketSums (List.foldl aggStep d l) f = bucketSums d f + (l.map g).sum := by
  intro l
  induction l with
  | nil => intro d; simp
  | cons t ts ih =>
    intro d
    simp only [List.foldl_cons, List.map_cons, List.sum_cons]
    rw [ih (aggStep d t), bucketSums_aggStep f g hf hg]
    omega

/-- Claim C2: for every list of enriched transactions the sum of `amount`
over all buckets of `aggregate_report_transactions` equals the sum of
`amount` over the input transactions, and likewise for `fee` and `net`
(exact integer conservation). -/
theorem aggregate_report_transactions_conservation (l : List STx) :
    bucketSums (aggregate_report_transactions l) (fun b => b.amount) =
      (l.map (fun t => t.amount)).sum ∧
    bucketSums (aggregate_report_transactions l) (fun b => b.fee) =
      (l.map (fun t => t.fee)).sum ∧
    bucketSums (aggregate_report_transactions l) (fun b => b.net) =
      (l.map (fun t => t.net)).sum := by
  unfold aggregate_report_transactions
  refine ⟨?_, ?_, ?_⟩
  · have h := bucketSums_foldl (fun b => b.amount) (fun t => t.amount)
      (fun b t => by simp [addTx]) (fun t => by simp [newBucket]) l []
    simpa [bucketSums] using h
  · have h := bucketSums_foldl (fun b => b.fee) (fun t => t.fee)
      (fun b t => by simp [addTx]) (fun t => by simp [newBucket]) l []
    simpa [bucketSums] using h
  · have h := bucketSums_foldl (fun b => b.net) (fun t => t.net)
      (fun b t => by simp [addTx]) (fun t => by simp [newBucket]) l []
    simpa [bucketSums] using h

/-- Lookup after an in-place bucket update: the updated key's bucket
gains the transaction, all other keys are untouched. -/
theorem aggLookup_updateBucket (d : List (Option String × Bucket))
    (q p : Option String) (t : STx) :
    aggLookup (updateBucket d q t) p =
      if q = p then (aggLookup d p).map (fun b => addTx b t)
      else aggLookup d p := by
  induction d with
  | nil => by_cases h : q = p <;> simp [updateBucket, aggLookup, h]
  | cons e rest ih =>
    obtain ⟨k, b⟩ := e
    by_cases hk : k = q
    · subst hk
      by_cases hp : k = p
      · subst hp
        simp [updateBucket, aggLookup]
      · simp [updateBucket, aggLookup, hp]
    · by_cases hp : k = p
      · subst hp
        have hq : q ≠ k := fun hh => hk hh.symm
        simp [updateBucket, aggLookup, hk, hq]
      · simp [updateBucket, aggLookup, hk, hp, ih]

/-- Lookup after appending a fresh key at the end of the dict. -/
theorem aggLookup_append_single (d : List (Option String × Bucket))
    (q : Option String) (nb : Bucket) (p : Option String) :
    aggLookup (d ++ [(q, nb)]) p =
      match aggLookup d p with
      | some b => some b
      | Option.none => if q = p then some nb else Option.none := by
  induction d with
  | nil => simp [aggLookup]
  | cons e rest ih =>
    obtain ⟨k, b⟩ := e
    by_cases hk : k = p <;> simp [aggLookup, hk, ih]

/-- Lookup after one aggregation step: the stepped transaction's product
key folds that transaction in, all other keys are untouched. -/
theorem aggLookup_aggStep (d : List (Option String × Bucket)) (t : STx)
    (p : Option String) :
    aggLookup (aggStep d t) p =
      if t.product = p then
        some (match aggLookup d p with
          | Option.none => newBucket t
          | some b => addTx b t)
      else aggLookup d p := by
  unfold aggStep
  by_cases h : (aggLookup d t.product).isSome
  · rw [if_pos h, aggLookup_updateBucket]
    by_cases hp : t.product = p
    · rw [hp] at h
      obtain ⟨b, hb⟩ := Option.isSome_iff_exists.mp h
      simp [hp, hb]
    · simp [hp]
  · rw [if_neg h, aggLookup_append_single]
    have hnone : aggLookup d t.product = Option.none :=
      Option.not_isSome_iff_eq_none.mp h
    by_cases hp : t.product = p
    · rw [hp] at hnone
      simp [hp, hnone]
    · cases hb : aggLookup d p <;> simp [hp, hb]

/-- The per-key trace of the aggregation fold: looking one product up in
the folded dict is folding that product's transactions into the looked-up
start value. -/
theorem aggLookup_foldl (l : List STx) :
    ∀ (d : List (Option String × Bucket)) (p : Option String),
      aggLookup (List.foldl aggStep d l) p =
        foldBucket (aggLookup d p) (productFilter l p) := by
  induction l with
  | nil => intro d p; simp [foldBucket, productFilter]
  | cons t ts ih =>
    intro d p
    rw [List.foldl_cons, ih, aggLookup_aggStep]
    unfold productFilter
    rw [List.filter_cons]
    by_cases hp : t.product = p
    · cases hb : aggLookup d p <;> simp [foldBucket, hp, hb]
    · simp [foldBucket, hp]

/-- Folding transactions into an existing bucket accumulates the three
monetary sums and keeps the product key. -/
theorem foldBucket_some (l : List STx) :
    ∀ b : Bucket,
      foldBucket (some b) l =
        some { amount := b.amount + (l.map (fun t => t.amount)).sum,
               fee := b.fee + (l.map (fun t => t.fee)).sum,
               net := b.net + (l.map (fun t => t.net)).sum,
               product := b.product } := by
  induction l with
  | nil => intro b; simp [foldBucket]
  | cons t ts ih =>
    intro b
    have step : foldBucket (some b) (t :: ts) = foldBucket (some (addTx b t)) ts := rfl
    rw [step, ih (addTx b t)]
    simp [addTx, add_assoc]

/-- Folding a nonempty product-homogeneous transaction list from nothing
yields the bucket of sums for that product. -/
theorem foldBucket_none_filtered (p : Option String) (fl : List STx)
    (hne : fl ≠ []) (hall : ∀ t ∈ fl, t.product = p) :
    foldBucket Option.none fl =
      some { amount := (fl.map (fun t => t.amount)).sum,
             fee := (fl.map (fun t => t.fee)).sum,
             net := (fl.map (fun t => t.net)).sum,
             product := p } := by
  cases fl with
  | nil => cases hne rfl
  | cons t ts =>
    have step : foldBucket Option.none (t :: ts) =
        foldBucket (some (newBucket t)) ts := rfl
    rw [step, foldBucket_some]
    have hprod : t.product = p := hall t (by simp)
    simp [newBucket, hprod]

/-- Claim C7: aggregation is order-independent: permuting the enriched
transaction list leaves the aggregation mapping unchanged (every product
key looks up to the same bucket, so the group keys and per-group sums
coincide). -/
theorem aggregate_report_transactions_perm_invariant
    (l₁ l₂ : List STx) (h : l₁.Perm l₂) (p : Option String) :
    aggLookup (aggregate_report_transactions l₁) p =
      aggLookup (aggregate_report_transactions l₂) p := by
  unfold aggregate_report_transactions
  rw [aggLookup_foldl, aggLookup_foldl]
  have hperm : (productFilter l₁ p).Perm (productFilter l₂ p) := h.filter _
  have hlen := hperm.length_eq
  by_cases h1 : productFilter l₁ p = []
  · have h2 : productFilter l₂ p = [] := by
      rw [← List.length_eq_zero, ← hlen, List.length_eq_zero]
      exact h1
    simp [aggLookup, h1, h2]
  · have h2 : productFilter l₂ p ≠ [] := by
      intro hh
      apply h1
      rw [← List.length_eq_zero, hlen, List.length_eq_zero]
      exact hh
    have hall1 : ∀ t ∈ productFilter l₁ p, t.product = p := by
      intro t ht
      have hm := List.of_mem_filter ht
      simpa using hm
    have hall2 : ∀ t ∈ productFilter l₂ p, t.product = p := by
      intro t ht
      have hm := List.of_mem_filter ht
      simpa using hm
    have e1 := foldBucket_none_filtered p (productFilter l₁ p) h1 hall1
    have e2 := foldBucket_none_filtered p (productFilter l₂ p) h2 hall2
    have ha := (hperm.map (fun t => t.amount)).sum_eq
    have hf := (hperm.map (fun t => t.fee)).sum_eq
    have hn := (hperm.map (fun t => t.net)).sum_eq
    simp only [aggLookup] at e1 e2 ⊢
    rw [e1, e2, ha, hf, hn]

/-- Witness for C7: swapping two enriched transactions leaves the Coffee
bucket unchanged. -/
theorem aggregate_report_transactions_perm_invariant_witness :
    aggLookup (aggregate_report_transactions [stxCoffeeA, stxUnmatched])
        (some "Coffee") =
      aggLookup (aggregate_report_transactions [stxUnmatched, stxCoffeeA])
        (some "Coffee") :=
  aggregate_report_transactions_perm_invariant _ _
    (List.Perm.swap stxUnmatched stxCoffeeA []) (some "Coffee")

/-- Assigning a key that is not yet in the dict appends it at the end. -/
theorem dictSet_of_fresh (d : List (String × Bucket)) (k : String) (v : Bucket)
    (h : ∀ e ∈ d, e.1 ≠ k) : dictSet d k v = d ++ [(k, v)] := by
  induction d with
  | nil => simp [dictSet]
  | cons e rest ih =>
    obtain ⟨k', v'⟩ := e
    have hk : k' ≠ k := h (k', v') (by simp)
    simp only [dictSet, hk, if_false, List.cons_append, List.cons.injEq, true_and]
    exact ih (fun e he => h e (by simp [he]))

/-- Rebuilding a dict from pairs with pairwise-distinct keys reproduces
the pair list, continuing from any dict whose keys are disjoint from the
pairs'. -/
theorem pyDictOfPairs_aux :
    ∀ (pairs d : List (String × Bucket)),
      (pairs.map Prod.fst).Nodup →
      (∀ e ∈ d, e.1 ∉ pairs.map Prod.fst) →
      List.foldl (fun d e => dictSet d e.1 e.2) d pairs = d ++ pairs := by
  intro pairs
  induction pairs with
  | nil => intro d _ _; simp
  | cons e rest ih =>
    intro d hnd hdisj
    obtain ⟨k, v⟩ := e
    simp only [List.map_cons, List.nodup_cons] at hnd
    simp only [List.foldl_cons]
    have hfresh : ∀ e' ∈ d, e'.1 ≠ k := by
      intro e' he' hh
      exact hdisj e' he' (by simp [hh])
    rw [dictSet_of_fresh d k v hfresh]
    have hdisj' : ∀ e' ∈ d ++ [(k, v)], e'.1 ∉ rest.map Prod.fst := by
      intro e' he'
      rcases List.mem_append.mp he' with hmem | hmem
      · intro hh
        exact hdisj e' hmem (by simp [hh])
      · simp only [List.mem_singleton] at hmem
        subst hmem
        exact hnd.1
    rw [ih (d ++ [(k, v)]) hnd.2 hdisj', List.append_assoc, List.singleton_append]

/-- Rebuilding a dict from pairs with pairwise-distinct keys reproduces
the pair list exactly. -/
theorem pyDictOfPairs_of_nodup (pairs : List (String × Bucket))
    (h : (pairs.map Prod.fst).Nodup) : pyDictOfPairs pairs = pairs := by
  have haux := pyDictOfPairs_aux pairs [] h (by simp)
  simpa [pyDictOfPairs] using haux

/-- Counterexample to claim C4 as stated: a report whose aggregation has
the null-product group does not reload with identical group keys — the
`None` key is serialised as the JSON string "null", so the reloaded dict
is keyed by that string instead. -/
theorem json_round_trip_changes_null_group_key :
    (json_round_trip repWithNullGroup).aggregation.map Prod.fst ≠
      repWithNullGroup.aggregation.map Prod.fst := by decide

/-- Claim C4 (amended): provided the serialised group keys are pairwise
distinct (in particular no string-keyed group named "null" next to a
null-product group), the JSON round trip preserves the payout id, the
transaction list (hence its count), the buckets themselves, and the three
aggregate sums; the group keys are preserved except that each key is
reloaded as its JSON string, turning the null-product key into "null". -/
theorem json_round_trip_amended (r : Report)
    (h : (r.aggregation.map (fun e => jsonKeyOfProduct e.1)).Nodup) :
    (json_round_trip r).balance_payout_id = r.balance_payout_id ∧
    (json_round_trip r).transactions = r.transactions ∧
    (json_round_trip r).aggregation.map Prod.fst =
      r.aggregation.map (fun e => some (jsonKeyOfProduct e.1)) ∧
    (json_round_trip r).aggregation.map Prod.snd =
      r.aggregation.map Prod.snd ∧
    bucketSums (json_round_trip r).aggregation (fun b => b.amount) =
      bucketSums r.aggregation (fun b => b.amount) ∧
    bucketSums (json_round_trip r).aggregation (fun b => b.fee) =
      bucketSums r.aggregation (fun b => b.fee) ∧
    bucketSums (json_round_trip r).aggregation (fun b => b.net) =
      bucketSums r.aggregation (fun b => b.net) := by
  have hkeys : ((r.aggregation.map
      (fun e => (jsonKeyOfProduct e.1, e.2))).map Prod.fst).Nodup := by
    rw [List.map_map]
    exact h
  have hdict := pyDictOfPairs_of_nodup _ hkeys
  unfold json_round_trip
  rw [hdict]
  simp [bucketSums, List.map_map, Function.comp_def]

/-- Witness for C4 (amended): the report with a Coffee group and a
null-product group reloads with the null key renamed to "null" and
everything else intact. -/
theorem json_round_trip_amended_witness :
    (json_round_trip repWithNullGroup).balance_payout_id =
      repWithNullGroup.balance_payout_id ∧
    (json_round_trip repWithNullGroup).transactions =
      repWithNullGroup.transactions ∧
    (json_round_trip repWithNullGroup).aggregation.map Prod.fst =
      repWithNullGroup.aggregation.map (fun e => some (jsonKeyOfProduct e.1)) ∧
    (json_round_trip repWithNullGroup).aggregation.map Prod.snd =
      repWithNullGroup.aggregation.map Prod.snd ∧
    bucketSums (json_round_trip repWithNullGroup).aggregation
        (fun b => b.amount) =
      bucketSums repWithNullGroup.aggregation (fun b => b.amount) ∧
    bucketSums (json_round_trip repWithNullGroup).aggregation
        (fun b => b.fee) =
      bucketSums repWithNullGroup.aggregation (fun b => b.fee) ∧
    bucketSums (json_round_trip repWithNullGroup).aggregation
        (fun b => b.net) =
      bucketSums repWithNullGroup.aggregation (fun b => b.net) :=
  json_round_trip_amended repWithNullGroup (by decide)

/-- Claim C8: the worksheet layout and cell formatting.  With `n` buckets:
row 1 holds the aggregation header, rows 2 .. n+1 one row per bucket, no
write ever touches row n+2 (the single blank separator row), row n+3 holds
the detail header, and the detail rows follow from row n+4 on (written as
`i + 2 + (n + 2)` below, the source's index arithmetic); in every data
cell the monetary keys `amount`, `fee`, `net` carry the value divided by
100 and the `created` key carries the UTC-rendered timestamp string. -/
theorem save_to_worksheet_layout (r : Report) :
    (∀ w ∈ save_to_worksheet r, w.row ≠ r.aggregation.length + 2) ∧
    (∀ j, j < aggregationHeaders.length →
      ({ row := 1, col := j + 1,
         val := .str (headerAt aggregationHeaders j) } : CellWrite)
        ∈ save_to_worksheet r) ∧
    (∀ i, i < r.aggregation.length → ∀ j, j < aggregationHeaders.length →
      ({ row := i + 2, col := j + 1,
         val := format_for_worksheet
           (bucketGet (r.aggregation.getD i (Option.none, dummyBucket)).2)
           (headerAt aggregationHeaders j) } : CellWrite)
        ∈ save_to_worksheet r) ∧
    (∀ j, j < worksheetHeaders.length →
      ({ row := r.aggregation.length + 3, col := j + 1,
         val := .str (headerAt worksheetHeaders j) } : CellWrite)
        ∈ save_to_worksheet r) ∧
    (∀ i, i < r.transactions.length → ∀ j, j < worksheetHeaders.length →
      ({ row := i + 2 + (r.aggregation.length + 2), col := j + 1,
         val := format_for_worksheet
           (txGet (r.transactions.getD i dummySTx))
           (headerAt worksheetHeaders j) } : CellWrite)
        ∈ save_to_worksheet r) ∧
    (∀ t : STx,
      format_for_worksheet (txGet t) "amount" = .rat ((t.amount : ℚ) / 100) ∧
      format_for_worksheet (txGet t) "fee" = .rat ((t.fee : ℚ) / 100) ∧
      format_for_worksheet (txGet t) "net" = .rat ((t.net : ℚ) / 100) ∧
      format_for_worksheet (txGet t) "created" =
        .str (formatUtcDateTime t.created)) ∧
    (∀ b : Bucket,
      format_for_worksheet (bucketGet b) "amount" = .rat ((b.amount : ℚ) / 100) ∧
      format_for_worksheet (bucketGet b) "fee" = .rat ((b.fee : ℚ) / 100) ∧
      format_for_worksheet (bucketGet b) "net" = .rat ((b.net : ℚ) / 100)) := by
  refine ⟨?_, ?_, ?_, ?_, ?_, ?_, ?_⟩
  · intro w hw
    simp only [save_to_worksheet, List.mem_append] at hw
    rcases hw with ((hw | hw) | hw) | hw
    · obtain ⟨j, hj, rfl⟩ := List.mem_map.mp hw
      simp only []
      omega
    · obtain ⟨i, hi, hmem⟩ := List.mem_flatMap.mp hw
      obtain ⟨j, hj, rfl⟩ := List.mem_map.mp hmem
      have hi' := List.mem_range.mp hi
      simp only []
      omega
    · obtain ⟨j, hj, rfl⟩ := List.mem_map.mp hw
      simp only []
      omega
    · obtain ⟨i, hi, hmem⟩ := List.mem_flatMap.mp hw
      obtain ⟨j, hj, rfl⟩ := List.mem_map.mp hmem
      simp only []
      omega
  · intro j hj
    simp only [save_to_worksheet, List.mem_append]
    exact Or.inl (Or.inl (Or.inl
      (List.mem_map.mpr ⟨j, List.mem_range.mpr hj, rfl⟩)))
  · intro i hi j hj
    simp only [save_to_worksheet, List.mem_append]
    exact Or.inl (Or.inl (Or.inr
      (List.mem_flatMap.mpr ⟨i, List.mem_range.mpr hi,
        List.mem_map.mpr ⟨j, List.mem_range.mpr hj, rfl⟩⟩)))
  · intro j hj
    simp only [save_to_worksheet, List.mem_append]
    exact Or.inl (Or.inr
      (List.mem_map.mpr ⟨j, List.mem_range.mpr hj, rfl⟩))
  · intro i hi j hj
    simp only [save_to_worksheet, List.mem_append]
    exact Or.inr
      (List.mem_flatMap.mpr ⟨i, List.mem_range.mpr hi,
        List.mem_map.mpr ⟨j, List.mem_range.mpr hj, rfl⟩⟩)
  · intro t
    refine ⟨rfl, rfl, rfl, rfl⟩
  · intro b
    refine ⟨rfl, rfl, rfl⟩

/-- Witness for C8 at a one-bucket, one-transaction report: the blank
separator is row 3, the headers sit at rows 1 and 4, the bucket row at 2,
the detail row at 5, and concrete cells show the division by 100 and the
UTC timestamp string. -/
theorem save_to_worksheet_layout_witness :
    ({ row := 1, col := 1, val := .str "product" } : CellWrite).row ≠
      repOneEach.aggregation.length + 2 ∧
    ({ row := 1, col := 1, val := .str "product" } : CellWrite)
      ∈ save_to_worksheet repOneEach ∧
    ({ row := 2, col := 2, val := .rat ((1000 : ℚ) / 100) } : CellWrite)
      ∈ save_to_worksheet repOneEach ∧
    ({ row := 4, col := 2, val := .str "created" } : CellWrite)
      ∈ save_to_worksheet repOneEach ∧
    ({ row := 5, col := 2,
       val := .str "2023-11-14 22:13:20" } : CellWrite)
      ∈ save_to_worksheet repOneEach ∧
    format_for_worksheet (txGet stxCoffeeA) "created" =
      .str "2023-11-14 22:13:20" :=
  ⟨(save_to_worksheet_layout repOneEach).1
      { row := 1, col := 1, val := .str "product" } (by decide),
   (save_to_worksheet_layout repOneEach).2.1 0 (by decide),
   (save_to_worksheet_layout repOneEach).2.2.1 0 (by decide) 1 (by decide),
   (save_to_worksheet_layout repOneEach).2.2.2.1 1 (by decide),
   (save_to_worksheet_layout repOneEach).2.2.2.2.1 0 (by decide) 1 (by decide),
   ((save_to_worksheet_layout repOneEach).2.2.2.2.2.1 stxCoffeeA).2.2.2⟩

end StripeReporter
